import Mathlib

/-!
Verification of the CSS selector builder (and the Rectangle value object)
from `src/05-objects-tasks.js`.

The JavaScript `MyBuilder` class is embedded as a Lean structure holding
the builder state; each mutating method becomes a function
`MyBuilder → … → Except BuilderError MyBuilder` that either returns the
updated state or the error the method would throw.  JS `null`-able string
fields become `Option String`; JS string concatenation becomes `++`;
`String.prototype.includes` and `Array.prototype.join` are given explicit
executable definitions below.  The field named `class` in the source is
called `cls` here because `class` is a Lean keyword.
-/

/-- The two error kinds thrown by the builder: the uniqueness error
(`uniError` in the source) and the ordering error (`ordError`). -/
inductive BuilderError where
  | uniqueness
  | ordering
deriving DecidableEq, Repr

/-- Message of `this.uniError` in the source. -/
def uniErrorMessage : String :=
  "Element, id and pseudo-element should not occur more then one time inside the selector"

/-- Message of `this.ordError` in the source. -/
def ordErrorMessage : String :=
  "Selector parts should be arranged in the following order: element, id, class, attribute, pseudo-class, pseudo-element"

/-- `this.selectorObject` of `MyBuilder`: `element`, `id`, `pseudoElement`
start as `null` (here `none`); `class`, `attr`, `pseudoClass` start as `''`. -/
structure SelectorObject where
  element : Option String
  id : Option String
  cls : String
  attr : String
  pseudoClass : String
  pseudoElement : Option String
deriving DecidableEq, Repr

/-- The state of one `MyBuilder` instance: `this.selectorText` and
`this.selectorObject`. -/
structure MyBuilder where
  selectorText : String
  selectorObject : SelectorObject
deriving DecidableEq, Repr

/-- The constructor `new MyBuilder()`. -/
def MyBuilder.new : MyBuilder :=
  { selectorText := ""
    selectorObject :=
      { element := none, id := none, cls := "", attr := "", pseudoClass := "", pseudoElement := none } }

/-- `this.checkElementString` in the source. -/
def checkElementString : String := "element id class attr pseudoClass pseudoElement"

/-- `this.checkIdString` in the source. -/
def checkIdString : String := "id class attr pseudoClass pseudoElement"

/-- `this.checkClassString` in the source. -/
def checkClassString : String := "attr pseudoClass pseudoElement"

/-- `this.checkAttrString` in the source. -/
def checkAttrString : String := "pseudoClass pseudoElement"

/-- `this.checkPseudoString` in the source. -/
def checkPseudoString : String := "pseudoElement"

/-- The JS test `value === null || value === ''` on a nullable string field. -/
def optEmpty : Option String → Bool
  | none => true
  | some s => s == ""

/-- The JS test `value === null || value === ''` on a plain string field
(such fields are never `null`). -/
def strEmpty (s : String) : Bool := s == ""

/-- `Array.prototype.join(' ')`. -/
def joinSpace : List String → String
  | [] => ""
  | [x] => x
  | x :: y :: xs => x ++ " " ++ joinSpace (y :: xs)

/-- `hasPref pat s` holds when `pat` is a prefix of `s` (helper for
`String.prototype.includes`). -/
def hasPref : List Char → List Char → Bool
  | [], _ => true
  | _ :: _, [] => false
  | x :: xs, y :: ys => (x == y) && hasPref xs ys

/-- `containsSub pat s` holds when `pat` occurs contiguously inside `s`. -/
def containsSub (pat : List Char) : List Char → Bool
  | [] => hasPref pat []
  | y :: ys => hasPref pat (y :: ys) || containsSub pat ys

/-- `s.includes(pat)` from JavaScript: contiguous substring containment. -/
def strIncludes (s pat : String) : Bool := containsSub pat.data s.data

/-- The body of `getNulls()` as a function of the six emptiness tests, in
the fixed key order of `this.selectorObject`: filter the keys whose value
is `null` or `''` and join them with a space. -/
def nullsOf (e i c a p q : Bool) : String :=
  joinSpace ((([("element", e), ("id", i), ("class", c), ("attr", a),
      ("pseudoClass", p), ("pseudoElement", q)].filter (fun kv => kv.2)).map
      (fun kv => kv.1)))

/-- `getNulls()`: the space-joined list of category keys whose field is
`null` or empty. -/
def MyBuilder.getNulls (b : MyBuilder) : String :=
  nullsOf (optEmpty b.selectorObject.element) (optEmpty b.selectorObject.id)
    (strEmpty b.selectorObject.cls) (strEmpty b.selectorObject.attr)
    (strEmpty b.selectorObject.pseudoClass) (optEmpty b.selectorObject.pseudoElement)

/-- `null` is rendered as `''` by `Array.prototype.join`. -/
def optStr : Option String → String
  | none => ""
  | some s => s

/-- `stringify()`: `selectorText` followed by `Object.values(selectorObject).join('')`
in key insertion order. -/
def MyBuilder.stringify (b : MyBuilder) : String :=
  b.selectorText ++ optStr b.selectorObject.element ++ optStr b.selectorObject.id ++
    b.selectorObject.cls ++ b.selectorObject.attr ++ b.selectorObject.pseudoClass ++
    optStr b.selectorObject.pseudoElement

/-- `selector(value)`: appends `value` to `selectorText`. -/
def MyBuilder.selector (b : MyBuilder) (value : String) : MyBuilder :=
  { b with selectorText := b.selectorText ++ value }

/-- `element(value)`: uniqueness check, then the ordering check
`getNulls() !== checkElementString`, then stores the raw `value`. -/
def MyBuilder.element (b : MyBuilder) (value : String) : Except BuilderError MyBuilder :=
  if b.selectorObject.element ≠ none then .error .uniqueness
  else if b.getNulls ≠ checkElementString then .error .ordering
  else .ok { b with selectorObject := { b.selectorObject with element := some value } }

/-- `id(value)`: uniqueness check, then the ordering check
`!getNulls().includes(checkIdString)`, then stores `'#' + value`. -/
def MyBuilder.id (b : MyBuilder) (value : String) : Except BuilderError MyBuilder :=
  if b.selectorObject.id ≠ none then .error .uniqueness
  else if ¬ strIncludes b.getNulls checkIdString then .error .ordering
  else .ok { b with selectorObject := { b.selectorObject with id := some ("#" ++ value) } }

/-- `class(value)`: the ordering check `!getNulls().includes(checkClassString)`,
then appends `'.' + value`. -/
def MyBuilder.cls (b : MyBuilder) (value : String) : Except BuilderError MyBuilder :=
  if ¬ strIncludes b.getNulls checkClassString then .error .ordering
  else .ok { b with selectorObject :=
    { b.selectorObject with cls := b.selectorObject.cls ++ "." ++ value } }

/-- `attr(value)`: the ordering check `!getNulls().includes(checkAttrString)`,
then appends `'[' + value + ']'`. -/
def MyBuilder.attr (b : MyBuilder) (value : String) : Except BuilderError MyBuilder :=
  if ¬ strIncludes b.getNulls checkAttrString then .error .ordering
  else .ok { b with selectorObject :=
    { b.selectorObject with attr := b.selectorObject.attr ++ "[" ++ value ++ "]" } }

/-- `pseudoClass(value)`: the ordering check
`!getNulls().includes(checkPseudoString)`, then appends `':' + value`. -/
def MyBuilder.pseudoClass (b : MyBuilder) (value : String) : Except BuilderError MyBuilder :=
  if ¬ strIncludes b.getNulls checkPseudoString then .error .ordering
  else .ok { b with selectorObject :=
    { b.selectorObject with pseudoClass := b.selectorObject.pseudoClass ++ ":" ++ value } }

/-- `pseudoElement(value)`: uniqueness check, then the ordering check
`!getNulls().includes(checkPseudoString)`, then stores `'::' + value`. -/
def MyBuilder.pseudoElement (b : MyBuilder) (value : String) : Except BuilderError MyBuilder :=
  if b.selectorObject.pseudoElement ≠ none then .error .uniqueness
  else if ¬ strIncludes b.getNulls checkPseudoString then .error .ordering
  else .ok { b with selectorObject := { b.selectorObject with pseudoElement := some ("::" ++ value) } }

/-- The facade `cssSelectorBuilder.stringify()`. -/
def cssSelectorBuilder.stringify : String := MyBuilder.new.stringify

/-- The facade `cssSelectorBuilder.element(value)`. -/
def cssSelectorBuilder.element (value : String) : Except BuilderError MyBuilder :=
  MyBuilder.new.element value

/-- The facade `cssSelectorBuilder.id(value)`. -/
def cssSelectorBuilder.id (value : String) : Except BuilderError MyBuilder :=
  MyBuilder.new.id value

/-- The facade `cssSelectorBuilder.class(value)`. -/
def cssSelectorBuilder.cls (value : String) : Except BuilderError MyBuilder :=
  MyBuilder.new.cls value

/-- The facade `cssSelectorBuilder.attr(value)`. -/
def cssSelectorBuilder.attr (value : String) : Except BuilderError MyBuilder :=
  MyBuilder.new.attr value

/-- The facade `cssSelectorBuilder.pseudoClass(value)`. -/
def cssSelectorBuilder.pseudoClass (value : String) : Except BuilderError MyBuilder :=
  MyBuilder.new.pseudoClass value

/-- The facade `cssSelectorBuilder.pseudoElement(value)`. -/
def cssSelectorBuilder.pseudoElement (value : String) : Except BuilderError MyBuilder :=
  MyBuilder.new.pseudoElement value

/-- The facade `cssSelectorBuilder.combine(selector1, combinator, selector2)`:
a fresh builder whose `selectorText` is the template-literal join of the two
already-rendered operands. -/
def cssSelectorBuilder.combine (selector1 : MyBuilder) (combinator : String)
    (selector2 : MyBuilder) : MyBuilder :=
  MyBuilder.new.selector (selector1.stringify ++ " " ++ combinator ++ " " ++ selector2.stringify)

/-- `function Rectangle(width, height)` with its `getArea` method reading
the instance fields; JS numbers are modelled as integers. -/
structure Rectangle where
  width : Int
  height : Int
deriving DecidableEq, Repr

/-- `r.getArea()`: `this.width * this.height`. -/
def Rectangle.getArea (r : Rectangle) : Int := r.width * r.height

/-! ## Call sequences

A `Call` is one invocation of a category setter; running a list of calls
models a chain of method calls on one builder instance. -/

/-- The six selector categories, in the fixed order
element < id < class < attribute < pseudo-class < pseudo-element. -/
inductive Category where
  | element
  | id
  | cls
  | attr
  | pseudoClass
  | pseudoElement
deriving DecidableEq, Repr

/-- One category-setter invocation with its string argument. -/
inductive Call where
  | element (value : String)
  | id (value : String)
  | cls (value : String)
  | attr (value : String)
  | pseudoClass (value : String)
  | pseudoElement (value : String)
deriving DecidableEq, Repr

/-- The category a call belongs to. -/
def callCat : Call → Category
  | .element _ => .element
  | .id _ => .id
  | .cls _ => .cls
  | .attr _ => .attr
  | .pseudoClass _ => .pseudoClass
  | .pseudoElement _ => .pseudoElement

/-- The call of a given category carrying a given value. -/
def mkCall : Category → String → Call
  | .element, v => .element v
  | .id, v => .id v
  | .cls, v => .cls v
  | .attr, v => .attr v
  | .pseudoClass, v => .pseudoClass v
  | .pseudoElement, v => .pseudoElement v

/-- Dispatch one call to the corresponding `MyBuilder` method. -/
def applyCall (b : MyBuilder) : Call → Except BuilderError MyBuilder
  | .element v => b.element v
  | .id v => b.id v
  | .cls v => b.cls v
  | .attr v => b.attr v
  | .pseudoClass v => b.pseudoClass v
  | .pseudoElement v => b.pseudoElement v

/-- Run a chain of calls, stopping at the first thrown error (uncaught
exception semantics). -/
def runAll (b : MyBuilder) : List Call → Except BuilderError MyBuilder
  | [] => .ok b
  | c :: cs =>
    match applyCall b c with
    | .ok b' => runAll b' cs
    | .error e => .error e

/-- Run a chain of calls where the caller catches every error and keeps
going with the same builder (rejected calls change nothing). -/
def runSkipCode (b : MyBuilder) : List Call → MyBuilder
  | [] => b
  | c :: cs =>
    match applyCall b c with
    | .ok b' => runSkipCode b' cs
    | .error _ => runSkipCode b cs

/-- The outcome of each call in a caught-and-continue run: `none` for an
accepted call, `some e` for a rejected one. -/
def runTraceCode (b : MyBuilder) : List Call → List (Option BuilderError)
  | [] => []
  | c :: cs =>
    match applyCall b c with
    | .ok b' => none :: runTraceCode b' cs
    | .error e => some e :: runTraceCode b cs

/-- `touchedGo b cs cat`: some call of category `cat` in `cs` is accepted
when `cs` is run (caught-and-continue) from `b`. -/
def touchedGo (b : MyBuilder) : List Call → Category → Bool
  | [], _ => false
  | c :: cs, cat =>
    match applyCall b c with
    | .ok b' => (callCat c == cat) || touchedGo b' cs cat
    | .error _ => touchedGo b cs cat

/-- `touchedBy cs cat`: category `cat` has received at least one accepted
call when `cs` is run on a fresh builder. -/
def touchedBy (cs : List Call) (cat : Category) : Bool := touchedGo MyBuilder.new cs cat

/-! ## Spec-side reference model

Modelled from the spec: the ordering/uniqueness check algorithm of §4.1 /
§9, keeping an explicit set of touched categories (equivalently a
monotonic highest-category-touched pointer): a call to category `c` is
rejected with the uniqueness error if `c` is singular and already touched,
otherwise with the ordering error if any category strictly after `c` has
already received a call. -/

/-- The categories strictly after a given category in the fixed order. -/
def laterCats : Category → List Category
  | .element => [.id, .cls, .attr, .pseudoClass, .pseudoElement]
  | .id => [.cls, .attr, .pseudoClass, .pseudoElement]
  | .cls => [.attr, .pseudoClass, .pseudoElement]
  | .attr => [.pseudoClass, .pseudoElement]
  | .pseudoClass => [.pseudoElement]
  | .pseudoElement => []

/-- The singular categories: element, id, pseudo-element. -/
def singularCat : Category → Bool
  | .element => true
  | .id => true
  | .pseudoElement => true
  | _ => false

/-- Modelled from the spec: one step of the reference checker over the
explicit touched-category set. -/
def SpecModel.step (t : Category → Bool) (c : Call) :
    Except BuilderError (Category → Bool) :=
  if singularCat (callCat c) && t (callCat c) then .error .uniqueness
  else if (laterCats (callCat c)).any t then .error .ordering
  else .ok (fun x => if x = callCat c then true else t x)

/-- Modelled from the spec: the reference model's initial state — no
category touched yet. -/
def SpecModel.init : Category → Bool := fun _ => false

/-- The reference model's per-call outcomes over a call sequence
(caught-and-continue, mirroring `runTraceCode`). -/
def SpecModel.runTrace (t : Category → Bool) : List Call → List (Option BuilderError)
  | [] => []
  | c :: cs =>
    match SpecModel.step t c with
    | .ok t' => none :: SpecModel.runTrace t' cs
    | .error e => some e :: SpecModel.runTrace t cs

/-! ## Characterizing the string-membership checks -/

/-- The element ordering check: `getNulls()` equals the full key list
exactly when every field is null or empty. -/
theorem nullsOf_eq_checkElement (e i c a p q : Bool) :
    ((nullsOf e i c a p q == checkElementString) : Bool) = (e && i && c && a && p && q) := by
  revert e i c a p q; decide

/-- The id ordering check: `getNulls().includes(checkIdString)` holds
exactly when the id, class, attr, pseudo-class and pseudo-element fields
are all null or empty. -/
theorem includes_checkId (e i c a p q : Bool) :
    strIncludes (nullsOf e i c a p q) checkIdString = (i && c && a && p && q) := by
  revert e i c a p q; decide

/-- The class ordering check characterized by field emptiness. -/
theorem includes_checkClass (e i c a p q : Bool) :
    strIncludes (nullsOf e i c a p q) checkClassString = (a && p && q) := by
  revert e i c a p q; decide

/-- The attr ordering check characterized by field emptiness. -/
theorem includes_checkAttr (e i c a p q : Bool) :
    strIncludes (nullsOf e i c a p q) checkAttrString = (p && q) := by
  revert e i c a p q; decide

/-- The pseudo-class / pseudo-element ordering check characterized by
field emptiness. -/
theorem includes_checkPseudo (e i c a p q : Bool) :
    strIncludes (nullsOf e i c a p q) checkPseudoString = q := by
  revert e i c a p q; decide

/-! ## Helper facts about the stored fragments -/

/-- An id fragment `'#' + value` is never the empty string. -/
theorem hash_append_ne (v : String) : "#" ++ v ≠ "" := by
  intro hh
  have hd := congrArg String.data hh
  simp [String.data_append] at hd

/-- A pseudo-element fragment `'::' + value` is never the empty string. -/
theorem dcolon_append_ne (v : String) : "::" ++ v ≠ "" := by
  intro hh
  have hd := congrArg String.data hh
  simp [String.data_append] at hd

/-- After a class fragment is appended the class field is non-empty. -/
theorem strEmpty_dot (s v : String) : strEmpty (s ++ "." ++ v) = false := by
  simp only [strEmpty]
  rw [beq_eq_false_iff_ne]
  intro hh
  have hd := congrArg String.data hh
  simp [String.data_append] at hd

/-- After an attribute fragment is appended the attr field is non-empty. -/
theorem strEmpty_brk (s v : String) : strEmpty (s ++ "[" ++ v ++ "]") = false := by
  simp only [strEmpty]
  rw [beq_eq_false_iff_ne]
  intro hh
  have hd := congrArg String.data hh
  simp [String.data_append] at hd

/-- After a pseudo-class fragment is appended the pseudoClass field is non-empty. -/
theorem strEmpty_colon (s v : String) : strEmpty (s ++ ":" ++ v) = false := by
  simp only [strEmpty]
  rw [beq_eq_false_iff_ne]
  intro hh
  have hd := congrArg String.data hh
  simp [String.data_append] at hd

/-! ## Simulation between the code and the spec model -/

/-- Relate two `Except` results: matching success values through `r`, or
the same error. -/
def ExceptRel (r : α → β → Prop) : Except BuilderError α → Except BuilderError β → Prop
  | .ok a, .ok b => r a b
  | .error e₁, .error e₂ => e₁ = e₂
  | _, _ => False

/-- `ExceptRel` on two successes is the underlying relation. -/
theorem ExceptRel_ok_ok (r : α → β → Prop) (a : α) (b : β) :
    ExceptRel r (.ok a) (.ok b) = r a b := rfl

/-- `ExceptRel` on two errors is equality of the errors. -/
theorem ExceptRel_error_error (r : α → β → Prop) (e₁ e₂ : BuilderError) :
    ExceptRel r (Except.error e₁) (Except.error e₂) = (e₁ = e₂) := rfl

/-- The simulation invariant between a builder state and the reference
model's touched-category set: each singular field is set exactly when its
category is touched (and the stored `'#…'`/`'::…'` fragments are never
empty), and each multi-valued field is non-empty exactly when its category
is touched. -/
def SimInv (b : MyBuilder) (t : Category → Bool) : Prop :=
  b.selectorObject.element.isSome = t Category.element ∧
  b.selectorObject.id.isSome = t Category.id ∧
  b.selectorObject.id ≠ some "" ∧
  strEmpty b.selectorObject.cls = !t Category.cls ∧
  strEmpty b.selectorObject.attr = !t Category.attr ∧
  strEmpty b.selectorObject.pseudoClass = !t Category.pseudoClass ∧
  b.selectorObject.pseudoElement.isSome = t Category.pseudoElement ∧
  b.selectorObject.pseudoElement ≠ some ""

/-- The fresh builder is related to the fresh touched set. -/
theorem SimInv_new_init : SimInv MyBuilder.new SpecModel.init := by
  refine ⟨rfl, rfl, ?_, rfl, rfl, rfl, rfl, ?_⟩ <;> simp [MyBuilder.new]

/-- `SimInv` only reads the touched set pointwise. -/
theorem SimInv_congr (b : MyBuilder) {t t' : Category → Bool}
    (hpt : ∀ x, t x = t' x) (h : SimInv b t) : SimInv b t' := by
  obtain ⟨h1, h2, h3, h4, h5, h6, h7, h8⟩ := h
  exact ⟨by rw [h1, hpt], by rw [h2, hpt], h3, by rw [h4, hpt], by rw [h5, hpt],
    by rw [h6, hpt], by rw [h7, hpt], h8⟩

/-- One call taken by the embedded code and by the spec model from
`SimInv`-related states produces the same outcome, and related states on
success. -/
theorem step_sim (b : MyBuilder) (t : Category → Bool) (h : SimInv b t) (c : Call) :
    ExceptRel SimInv (applyCall b c) (SpecModel.step t c) := by
  obtain ⟨he, hi, hine, hc, ha, hp, hq, hqne⟩ := h
  have hoid : optEmpty b.selectorObject.id = !t Category.id := by
    cases hx : b.selectorObject.id with
    | none =>
      rw [hx] at hi
      simp only [Option.isSome_none] at hi
      rw [← hi]; rfl
    | some s =>
      rw [hx] at hi hine
      simp only [Option.isSome_some] at hi
      have hs : s ≠ "" := fun hh => hine (by rw [hh])
      rw [← hi]
      simp [optEmpty, hs]
  have hope : optEmpty b.selectorObject.pseudoElement = !t Category.pseudoElement := by
    cases hx : b.selectorObject.pseudoElement with
    | none =>
      rw [hx] at hq
      simp only [Option.isSome_none] at hq
      rw [← hq]; rfl
    | some s =>
      rw [hx] at hq hqne
      simp only [Option.isSome_some] at hq
      have hs : s ≠ "" := fun hh => hqne (by rw [hh])
      rw [← hq]
      simp [optEmpty, hs]
  cases c with
  | element v =>
    cases hte : t Category.element with
    | true =>
      have hne : b.selectorObject.element ≠ none := by
        intro hn; rw [hn, hte] at he; exact Bool.noConfusion he
      have hmc : (singularCat (callCat (Call.element v)) && t (callCat (Call.element v))) = true := by
        simp [callCat, singularCat, hte]
      simp only [applyCall, MyBuilder.element, SpecModel.step]
      rw [if_pos hne, if_pos hmc]
      exact rfl
    | false =>
      have hnone : b.selectorObject.element = none := by
        cases hh : b.selectorObject.element with
        | none => rfl
        | some s => rw [hh, hte] at he; exact Bool.noConfusion he
      have hnn : ¬ b.selectorObject.element ≠ none := fun hh => hh hnone
      have hmc : ¬ ((singularCat (callCat (Call.element v)) && t (callCat (Call.element v))) = true) := by
        simp [callCat, singularCat, hte]
      have hany : (laterCats (callCat (Call.element v))).any t
          = (t Category.id || (t Category.cls || (t Category.attr ||
              (t Category.pseudoClass || t Category.pseudoElement)))) := by
        simp [callCat, laterCats]
      have hkey : (b.getNulls == checkElementString)
          = !((laterCats (callCat (Call.element v))).any t) := by
        rw [hany]
        simp only [MyBuilder.getNulls]
        rw [nullsOf_eq_checkElement, hnone, hoid, hc, ha, hp, hope]
        cases h1 : t Category.id <;> cases h2 : t Category.cls <;> cases h3 : t Category.attr <;>
          cases h4 : t Category.pseudoClass <;> cases h5 : t Category.pseudoElement <;> rfl
      cases hD : (laterCats (callCat (Call.element v))).any t with
      | true =>
        have hfalse : (b.getNulls == checkElementString) = false := by rw [hkey, hD]; rfl
        have hneqN : b.getNulls ≠ checkElementString := beq_eq_false_iff_ne.mp hfalse
        simp only [applyCall, MyBuilder.element, SpecModel.step]
        rw [if_neg hnn, if_pos hneqN, if_neg hmc, if_pos hD]
        exact rfl
      | false =>
        have htrue : (b.getNulls == checkElementString) = true := by rw [hkey, hD]; rfl
        have hEq : b.getNulls = checkElementString := eq_of_beq htrue
        simp only [applyCall, MyBuilder.element, SpecModel.step]
        rw [if_neg hnn, if_neg (fun hh => hh hEq), if_neg hmc, if_neg (by rw [hD]; simp)]
        rw [ExceptRel_ok_ok]
        refine ⟨by simp [callCat], by simp [callCat, hi], hine, by simp [callCat, hc],
          by simp [callCat, ha], by simp [callCat, hp], by simp [callCat, hq], hqne⟩
  | id v =>
    cases hti : t Category.id with
    | true =>
      have hne : b.selectorObject.id ≠ none := by
        intro hn; rw [hn, hti] at hi; exact Bool.noConfusion hi
      have hmc : (singularCat (callCat (Call.id v)) && t (callCat (Call.id v))) = true := by
        simp [callCat, singularCat, hti]
      simp only [applyCall, MyBuilder.id, SpecModel.step]
      rw [if_pos hne, if_pos hmc]
      exact rfl
    | false =>
      have hidnone : b.selectorObject.id = none := by
        cases hh : b.selectorObject.id with
        | none => rfl
        | some s => rw [hh, hti] at hi; exact Bool.noConfusion hi
      have hnn : ¬ b.selectorObject.id ≠ none := fun hh => hh hidnone
      have hmc : ¬ ((singularCat (callCat (Call.id v)) && t (callCat (Call.id v))) = true) := by
        simp [callCat, singularCat, hti]
      have hany : (laterCats (callCat (Call.id v))).any t
          = (t Category.cls || (t Category.attr ||
              (t Category.pseudoClass || t Category.pseudoElement))) := by
        simp [callCat, laterCats]
      have hkey : strIncludes b.getNulls checkIdString
          = !((laterCats (callCat (Call.id v))).any t) := by
        rw [hany]
        simp only [MyBuilder.getNulls]
        rw [includes_checkId, hidnone, hc, ha, hp, hope]
        cases h2 : t Category.cls <;> cases h3 : t Category.attr <;>
          cases h4 : t Category.pseudoClass <;> cases h5 : t Category.pseudoElement <;> rfl
      cases hD : (laterCats (callCat (Call.id v))).any t with
      | true =>
        have hnotinc : ¬ (strIncludes b.getNulls checkIdString = true) := by
          rw [hkey, hD]; simp
        simp only [applyCall, MyBuilder.id, SpecModel.step]
        rw [if_neg hnn, if_pos hnotinc, if_neg hmc, if_pos hD]
        exact rfl
      | false =>
        have hinc : strIncludes b.getNulls checkIdString = true := by rw [hkey, hD]; rfl
        simp only [applyCall, MyBuilder.id, SpecModel.step]
        rw [if_neg hnn, if_neg (fun hh => hh hinc), if_neg hmc, if_neg (by rw [hD]; simp)]
        rw [ExceptRel_ok_ok]
        refine ⟨by simp [callCat, he], by simp [callCat], ?_, by simp [callCat, hc],
          by simp [callCat, ha], by simp [callCat, hp], by simp [callCat, hq], hqne⟩
        intro hh
        have := Option.some.inj hh
        exact hash_append_ne v this
  | cls v =>
    have hmc : ¬ ((singularCat (callCat (Call.cls v)) && t (callCat (Call.cls v))) = true) := by
      simp [callCat, singularCat]
    have hany : (laterCats (callCat (Call.cls v))).any t
        = (t Category.attr || (t Category.pseudoClass || t Category.pseudoElement)) := by
      simp [callCat, laterCats]
    have hkey : strIncludes b.getNulls checkClassString
        = !((laterCats (callCat (Call.cls v))).any t) := by
      rw [hany]
      simp only [MyBuilder.getNulls]
      rw [includes_checkClass, ha, hp, hope]
      cases h3 : t Category.attr <;> cases h4 : t Category.pseudoClass <;>
        cases h5 : t Category.pseudoElement <;> rfl
    cases hD : (laterCats (callCat (Call.cls v))).any t with
    | true =>
      have hnotinc : ¬ (strIncludes b.getNulls checkClassString = true) := by
        rw [hkey, hD]; simp
      simp only [applyCall, MyBuilder.cls, SpecModel.step]
      rw [if_pos hnotinc, if_neg hmc, if_pos hD]
      exact rfl
    | false =>
      have hinc : strIncludes b.getNulls checkClassString = true := by rw [hkey, hD]; rfl
      simp only [applyCall, MyBuilder.cls, SpecModel.step]
      rw [if_neg (fun hh => hh hinc), if_neg hmc, if_neg (by rw [hD]; simp)]
      rw [ExceptRel_ok_ok]
      refine ⟨by simp [callCat, he], by simp [callCat, hi], hine,
        by simp [callCat, strEmpty_dot], by simp [callCat, ha], by simp [callCat, hp],
        by simp [callCat, hq], hqne⟩
  | attr v =>
    have hmc : ¬ ((singularCat (callCat (Call.attr v)) && t (callCat (Call.attr v))) = true) := by
      simp [callCat, singularCat]
    have hany : (laterCats (callCat (Call.attr v))).any t
        = (t Category.pseudoClass || t Category.pseudoElement) := by
      simp [callCat, laterCats]
    have hkey : strIncludes b.getNulls checkAttrString
        = !((laterCats (callCat (Call.attr v))).any t) := by
      rw [hany]
      simp only [MyBuilder.getNulls]
      rw [includes_checkAttr, hp, hope]
      cases h4 : t Category.pseudoClass <;> cases h5 : t Category.pseudoElement <;> rfl
    cases hD : (laterCats (callCat (Call.attr v))).any t with
    | true =>
      have hnotinc : ¬ (strIncludes b.getNulls checkAttrString = true) := by
        rw [hkey, hD]; simp
      simp only [applyCall, MyBuilder.attr, SpecModel.step]
      rw [if_pos hnotinc, if_neg hmc, if_pos hD]
      exact rfl
    | false =>
      have hinc : strIncludes b.getNulls checkAttrString = true := by rw [hkey, hD]; rfl
      simp only [applyCall, MyBuilder.attr, SpecModel.step]
      rw [if_neg (fun hh => hh hinc), if_neg hmc, if_neg (by rw [hD]; simp)]
      rw [ExceptRel_ok_ok]
      refine ⟨by simp [callCat, he], by simp [callCat, hi], hine, by simp [callCat, hc],
        by simp [callCat, strEmpty_brk], by simp [callCat, hp], by simp [callCat, hq], hqne⟩
  | pseudoClass v =>
    have hmc : ¬ ((singularCat (callCat (Call.pseudoClass v))
        && t (callCat (Call.pseudoClass v))) = true) := by
      simp [callCat, singularCat]
    have hany : (laterCats (callCat (Call.pseudoClass v))).any t = t Category.pseudoElement := by
      simp [callCat, laterCats]
    have hkey : strIncludes b.getNulls checkPseudoString
        = !((laterCats (callCat (Call.pseudoClass v))).any t) := by
      rw [hany]
      simp only [MyBuilder.getNulls]
      rw [includes_checkPseudo, hope]
    cases hD : (laterCats (callCat (Call.pseudoClass v))).any t with
    | true =>
      have hnotinc : ¬ (strIncludes b.getNulls checkPseudoString = true) := by
        rw [hkey, hD]; simp
      simp only [applyCall, MyBuilder.pseudoClass, SpecModel.step]
      rw [if_pos hnotinc, if_neg hmc, if_pos hD]
      exact rfl
    | false =>
      have hinc : strIncludes b.getNulls checkPseudoString = true := by rw [hkey, hD]; rfl
      simp only [applyCall, MyBuilder.pseudoClass, SpecModel.step]
      rw [if_neg (fun hh => hh hinc), if_neg hmc, if_neg (by rw [hD]; simp)]
      rw [ExceptRel_ok_ok]
      refine ⟨by simp [callCat, he], by simp [callCat, hi], hine, by simp [callCat, hc],
        by simp [callCat, ha], by simp [callCat, strEmpty_colon], by simp [callCat, hq], hqne⟩
  | pseudoElement v =>
    cases htq : t Category.pseudoElement with
    | true =>
      have hne : b.selectorObject.pseudoElement ≠ none := by
        intro hn; rw [hn, htq] at hq; exact Bool.noConfusion hq
      have hmc : (singularCat (callCat (Call.pseudoElement v))
          && t (callCat (Call.pseudoElement v))) = true := by
        simp [callCat, singularCat, htq]
      simp only [applyCall, MyBuilder.pseudoElement, SpecModel.step]
      rw [if_pos hne, if_pos hmc]
      exact rfl
    | false =>
      have hqnone : b.selectorObject.pseudoElement = none := by
        cases hh : b.selectorObject.pseudoElement with
        | none => rfl
        | some s => rw [hh, htq] at hq; exact Bool.noConfusion hq
      have hnn : ¬ b.selectorObject.pseudoElement ≠ none := fun hh => hh hqnone
      have hmc : ¬ ((singularCat (callCat (Call.pseudoElement v))
          && t (callCat (Call.pseudoElement v))) = true) := by
        simp [callCat, singularCat, htq]
      have hinc : strIncludes b.getNulls checkPseudoString = true := by
        simp only [MyBuilder.getNulls]
        rw [includes_checkPseudo, hqnone]
        rfl
      have hDf : ¬ ((laterCats (callCat (Call.pseudoElement v))).any t = true) := by
        simp [callCat, laterCats]
      simp only [applyCall, MyBuilder.pseudoElement, SpecModel.step]
      rw [if_neg hnn, if_neg (fun hh => hh hinc), if_neg hmc, if_neg hDf]
      rw [ExceptRel_ok_ok]
      refine ⟨by simp [callCat, he], by simp [callCat, hi], hine, by simp [callCat, hc],
        by simp [callCat, ha], by simp [callCat, hp], by simp [callCat], ?_⟩
      intro hh
      have := Option.some.inj hh
      exact dcolon_append_ne v this

/-- An accepted spec-model step marks exactly the call's category touched. -/
theorem step_ok_eq {t : Category → Bool} {c : Call} {t' : Category → Bool}
    (hm : SpecModel.step t c = .ok t') :
    ∀ x, t' x = if x = callCat c then true else t x := by
  unfold SpecModel.step at hm
  split at hm
  · exact absurd hm (by simp)
  · split at hm
    · exact absurd hm (by simp)
    · have hfun := Except.ok.inj hm
      exact fun x => congrFun hfun.symm x

/-- The embedded code and the spec model produce identical per-call
outcome traces from `SimInv`-related start states. -/
theorem trace_sim : ∀ (cs : List Call) (b : MyBuilder) (t : Category → Bool),
    SimInv b t → runTraceCode b cs = SpecModel.runTrace t cs := by
  intro cs
  induction cs with
  | nil => intro b t _; rfl
  | cons c cs ih =>
    intro b t h
    have hs := step_sim b t h c
    cases hb : applyCall b c with
    | ok b' =>
      cases hm : SpecModel.step t c with
      | ok t' =>
        rw [hb, hm] at hs
        rw [ExceptRel_ok_ok] at hs
        simp only [runTraceCode, SpecModel.runTrace, hb, hm]
        exact congrArg _ (ih b' t' hs)
      | error e =>
        rw [hb, hm] at hs
        exact hs.elim
    | error e =>
      cases hm : SpecModel.step t c with
      | ok t' =>
        rw [hb, hm] at hs
        exact hs.elim
      | error e2 =>
        rw [hb, hm] at hs
        rw [ExceptRel_error_error] at hs
        subst hs
        simp only [runTraceCode, SpecModel.runTrace, hb, hm]
        exact congrArg _ (ih b t h)

/-- Running calls caught-and-continue preserves the simulation invariant,
with the touched set grown by the accepted calls' categories. -/
theorem inv_runSkip : ∀ (cs : List Call) (b : MyBuilder) (t : Category → Bool),
    SimInv b t → SimInv (runSkipCode b cs) (fun cat => t cat || touchedGo b cs cat) := by
  intro cs
  induction cs with
  | nil =>
    intro b t h
    exact SimInv_congr _ (fun x => by simp [touchedGo]) h
  | cons c cs ih =>
    intro b t h
    have hs := step_sim b t h c
    cases hb : applyCall b c with
    | error e =>
      simp only [runSkipCode, touchedGo, hb]
      exact ih b t h
    | ok b' =>
      cases hm : SpecModel.step t c with
      | error e =>
        rw [hb, hm] at hs
        exact hs.elim
      | ok t' =>
        rw [hb, hm] at hs
        rw [ExceptRel_ok_ok] at hs
        have ht' := step_ok_eq hm
        simp only [runSkipCode, touchedGo, hb]
        refine SimInv_congr _ (fun x => ?_) (ih b' t' hs)
        rw [ht' x]
        by_cases hx : x = callCat c
        · subst hx; simp
        · have hbeq : (callCat c == x) = false :=
            beq_eq_false_iff_ne.mpr (fun hh => hx hh.symm)
          simp [hx, hbeq]

/-- The state reached by a caught-and-continue run from a fresh builder is
related to the history-derived touched set. -/
theorem inv_touchedBy (cs : List Call) :
    SimInv (runSkipCode MyBuilder.new cs) (touchedBy cs) := by
  have h := inv_runSkip cs MyBuilder.new SpecModel.init SimInv_new_init
  exact SimInv_congr _ (fun x => by simp [SpecModel.init, touchedBy]) h

/-- When does the spec model throw the uniqueness error. -/
theorem step_error_uniqueness_iff (t : Category → Bool) (c : Call) :
    SpecModel.step t c = .error .uniqueness ↔
      (singularCat (callCat c) = true ∧ t (callCat c) = true) := by
  unfold SpecModel.step
  split
  next hcond =>
    exact ⟨fun _ => by rw [Bool.and_eq_true] at hcond; exact hcond, fun _ => rfl⟩
  next hcond =>
    split
    next =>
      constructor
      · intro hh; exact absurd hh (by simp)
      · intro hh; exact absurd (show _ = true by rw [Bool.and_eq_true]; exact hh) hcond
    next =>
      constructor
      · intro hh; exact absurd hh (by simp)
      · intro hh; exact absurd (show _ = true by rw [Bool.and_eq_true]; exact hh) hcond

/-- When does the spec model throw the ordering error. -/
theorem step_error_ordering_iff (t : Category → Bool) (c : Call) :
    SpecModel.step t c = .error .ordering ↔
      ((laterCats (callCat c)).any t = true ∧
        ¬(singularCat (callCat c) = true ∧ t (callCat c) = true)) := by
  unfold SpecModel.step
  split
  next hcond =>
    constructor
    · intro hh; exact absurd hh (by simp)
    · intro hh; exact absurd (show _ ∧ _ by rw [Bool.and_eq_true] at hcond; exact hcond) hh.2
  next hcond =>
    split
    next hany =>
      exact ⟨fun _ => ⟨hany, fun hh => hcond (show _ = true by rw [Bool.and_eq_true]; exact hh)⟩, fun _ => rfl⟩
    next hany =>
      constructor
      · intro hh; exact absurd hh (by simp)
      · intro hh; exact absurd hh.1 hany

/-- Transfer an error-shape question across the simulation relation. -/
theorem ExceptRel_error_iff {r : α → β → Prop} {u : Except BuilderError α}
    {v : Except BuilderError β} (h : ExceptRel r u v) (e : BuilderError) :
    u = .error e ↔ v = .error e := by
  cases u with
  | ok a =>
    cases v with
    | ok b => constructor <;> (intro hh; exact absurd hh (by simp))
    | error e2 => exact h.elim
  | error e1 =>
    cases v with
    | ok b => exact h.elim
    | error e2 =>
      rw [ExceptRel_error_error] at h
      subst h
      constructor
      · intro hh; rw [Except.error.inj hh]
      · intro hh; rw [Except.error.inj hh]

/-- The call of a given category has that category. -/
theorem callCat_mkCall (cat : Category) (v : String) : callCat (mkCall cat v) = cat := by
  cases cat <;> rfl

/-- Claim C2: a setter call on a builder with history `cs` raises the
ordering error exactly when some category strictly after the call's
category has already received an accepted call and the call is not a
singular duplicate (which raises the uniqueness error instead); in
particular id-after-class raises the ordering error, class-after-id
succeeds, and a repeated class call is not blocked by its own category. -/
theorem ordering_error_iff_spec (cs : List Call) (c : Call) :
    (applyCall (runSkipCode MyBuilder.new cs) c = .error .ordering ↔
      ((laterCats (callCat c)).any (touchedBy cs) = true ∧
        ¬(singularCat (callCat c) = true ∧ touchedBy cs (callCat c) = true))) ∧
    applyCall (runSkipCode MyBuilder.new [Call.cls "a"]) (Call.id "x") = .error .ordering ∧
    applyCall (runSkipCode MyBuilder.new [Call.id "x"]) (Call.cls "a")
      = .ok { selectorText := "", selectorObject :=
          { element := none, id := some "#x", cls := ".a", attr := "",
            pseudoClass := "", pseudoElement := none } } ∧
    applyCall (runSkipCode MyBuilder.new [Call.cls "a"]) (Call.cls "b")
      = .ok { selectorText := "", selectorObject :=
          { element := none, id := none, cls := ".a.b", attr := "",
            pseudoClass := "", pseudoElement := none } } := by
  refine ⟨?_, rfl, rfl, rfl⟩
  have hs := step_sim _ (touchedBy cs) (inv_touchedBy cs) c
  rw [ExceptRel_error_iff hs BuilderError.ordering]
  exact step_error_ordering_iff (touchedBy cs) c

/-- Claim C3: a singular-category setter (element, id, pseudo-element)
called when its category already received an accepted call raises the
uniqueness error, whatever other calls were made in between; the
uniqueness check takes precedence over any simultaneous ordering
violation. -/
theorem uniqueness_precedence_spec (cs : List Call) (cat : Category) (v : String)
    (hsing : singularCat cat = true) (htouch : touchedBy cs cat = true) :
    applyCall (runSkipCode MyBuilder.new cs) (mkCall cat v) = .error .uniqueness := by
  have hs := step_sim _ (touchedBy cs) (inv_touchedBy cs) (mkCall cat v)
  rw [ExceptRel_error_iff hs BuilderError.uniqueness, step_error_uniqueness_iff,
    callCat_mkCall]
  exact ⟨hsing, htouch⟩

/-- Witness for claim C3: a second element call after an intervening class
call (so the ordering check is violated too) raises the uniqueness error. -/
theorem uniqueness_precedence_spec_witness :
    singularCat Category.element = true ∧
    touchedBy [Call.element "div", Call.cls "a"] Category.element = true ∧
    applyCall (runSkipCode MyBuilder.new [Call.element "div", Call.cls "a"])
        (mkCall Category.element "p") = .error .uniqueness :=
  ⟨rfl, rfl, uniqueness_precedence_spec [Call.element "div", Call.cls "a"]
    Category.element "p" rfl rfl⟩

/-- Claim C5: a rejected call leaves the builder unchanged, so any
subsequent run, its rendered string, and the outcomes of all later calls
are exactly as if the rejected call had never been made. -/
theorem rejected_call_no_mutation_spec (b : MyBuilder) (c : Call) (e : BuilderError)
    (cs : List Call) (h : applyCall b c = .error e) :
    runSkipCode b (c :: cs) = runSkipCode b cs ∧
    (runSkipCode b (c :: cs)).stringify = (runSkipCode b cs).stringify ∧
    runTraceCode b (c :: cs) = some e :: runTraceCode b cs := by
  refine ⟨?_, ?_, ?_⟩ <;> simp only [runSkipCode, runTraceCode, h]

/-- Witness for claim C5: the rejected id-after-class call changes nothing
about the continuation. -/
theorem rejected_call_no_mutation_spec_witness :
    runSkipCode (runSkipCode MyBuilder.new [Call.cls "a"]) (Call.id "x" :: [Call.cls "b"])
        = runSkipCode (runSkipCode MyBuilder.new [Call.cls "a"]) [Call.cls "b"] ∧
    (runSkipCode (runSkipCode MyBuilder.new [Call.cls "a"])
        (Call.id "x" :: [Call.cls "b"])).stringify
      = (runSkipCode (runSkipCode MyBuilder.new [Call.cls "a"]) [Call.cls "b"]).stringify ∧
    runTraceCode (runSkipCode MyBuilder.new [Call.cls "a"]) (Call.id "x" :: [Call.cls "b"])
      = some BuilderError.ordering
          :: runTraceCode (runSkipCode MyBuilder.new [Call.cls "a"]) [Call.cls "b"] :=
  rejected_call_no_mutation_spec _ (Call.id "x") BuilderError.ordering [Call.cls "b"] rfl

/-- Claim C6: the string-membership check over `getNulls()` is
behaviourally equivalent to the explicit touched-category reference model:
on every call sequence (empty-string arguments included) both accept and
reject exactly the same calls with the same error kind. -/
theorem getNulls_model_equiv_spec (cs : List Call) :
    runTraceCode MyBuilder.new cs = SpecModel.runTrace SpecModel.init cs :=
  trace_sim cs MyBuilder.new SpecModel.init SimInv_new_init

/-! ## Rendering a successful call sequence -/

/-- The class fragment one call contributes (`'.' + value` for a class
call, nothing otherwise). -/
def clsFragOf : Call → String
  | .cls v => "." ++ v
  | _ => ""

/-- The attribute fragment one call contributes. -/
def attrFragOf : Call → String
  | .attr v => "[" ++ v ++ "]"
  | _ => ""

/-- The pseudo-class fragment one call contributes. -/
def pcFragOf : Call → String
  | .pseudoClass v => ":" ++ v
  | _ => ""

/-- All class fragments of a call list, in insertion order. -/
def clsFrags : List Call → String
  | [] => ""
  | c :: cs => clsFragOf c ++ clsFrags cs

/-- All attribute fragments of a call list, in insertion order. -/
def attrFrags : List Call → String
  | [] => ""
  | c :: cs => attrFragOf c ++ attrFrags cs

/-- All pseudo-class fragments of a call list, in insertion order. -/
def pcFrags : List Call → String
  | [] => ""
  | c :: cs => pcFragOf c ++ pcFrags cs

/-- The values of the element calls in a call list. -/
def elemValOf : Call → List String
  | .element v => [v]
  | _ => []

/-- The values of the element calls in a call list. -/
def elemVals : List Call → List String
  | [] => []
  | c :: cs => elemValOf c ++ elemVals cs

/-- The values of the id calls in a call list. -/
def idValOf : Call → List String
  | .id v => [v]
  | _ => []

/-- The values of the id calls in a call list. -/
def idVals : List Call → List String
  | [] => []
  | c :: cs => idValOf c ++ idVals cs

/-- The values of the pseudo-element calls in a call list. -/
def peValOf : Call → List String
  | .pseudoElement v => [v]
  | _ => []

/-- The values of the pseudo-element calls in a call list. -/
def peVals : List Call → List String
  | [] => []
  | c :: cs => peValOf c ++ peVals cs

/-- The element name rendered by a call list (empty when no element call). -/
def elemFrag (cs : List Call) : String :=
  match elemVals cs with
  | [] => ""
  | v :: _ => v

/-- The id fragment `'#name'` rendered by a call list. -/
def idFrag (cs : List Call) : String :=
  match idVals cs with
  | [] => ""
  | v :: _ => "#" ++ v

/-- The pseudo-element fragment `'::name'` rendered by a call list. -/
def peFrag (cs : List Call) : String :=
  match peVals cs with
  | [] => ""
  | v :: _ => "::" ++ v

/-- A successful element call requires the field to have been unset and
only sets it. -/
theorem element_ok (b : MyBuilder) (v : String) (b₁ : MyBuilder)
    (h : b.element v = .ok b₁) :
    b.selectorObject.element = none ∧
    b₁ = { b with selectorObject := { b.selectorObject with element := some v } } := by
  unfold MyBuilder.element at h
  split at h
  · exact absurd h (by simp)
  · next hcond =>
    split at h
    · exact absurd h (by simp)
    · exact ⟨not_ne_iff.mp hcond, (Except.ok.inj h).symm⟩

/-- A successful id call requires the field to have been unset and only
sets it to `'#' + value`. -/
theorem id_ok (b : MyBuilder) (v : String) (b₁ : MyBuilder)
    (h : b.id v = .ok b₁) :
    b.selectorObject.id = none ∧
    b₁ = { b with selectorObject := { b.selectorObject with id := some ("#" ++ v) } } := by
  unfold MyBuilder.id at h
  split at h
  · exact absurd h (by simp)
  · next hcond =>
    split at h
    · exact absurd h (by simp)
    · exact ⟨not_ne_iff.mp hcond, (Except.ok.inj h).symm⟩

/-- A successful pseudo-element call requires the field to have been unset
and only sets it to `'::' + value`. -/
theorem pseudoElement_ok (b : MyBuilder) (v : String) (b₁ : MyBuilder)
    (h : b.pseudoElement v = .ok b₁) :
    b.selectorObject.pseudoElement = none ∧
    b₁ = { b with selectorObject :=
      { b.selectorObject with pseudoElement := some ("::" ++ v) } } := by
  unfold MyBuilder.pseudoElement at h
  split at h
  · exact absurd h (by simp)
  · next hcond =>
    split at h
    · exact absurd h (by simp)
    · exact ⟨not_ne_iff.mp hcond, (Except.ok.inj h).symm⟩

/-- A successful class call appends `'.' + value` and touches nothing else. -/
theorem cls_ok (b : MyBuilder) (v : String) (b₁ : MyBuilder)
    (h : b.cls v = .ok b₁) :
    b₁ = { b with selectorObject :=
      { b.selectorObject with cls := b.selectorObject.cls ++ "." ++ v } } := by
  unfold MyBuilder.cls at h
  split at h
  · exact absurd h (by simp)
  · exact (Except.ok.inj h).symm

/-- A successful attr call appends `'[' + value + ']'` and touches nothing
else. -/
theorem attr_ok (b : MyBuilder) (v : String) (b₁ : MyBuilder)
    (h : b.attr v = .ok b₁) :
    b₁ = { b with selectorObject :=
      { b.selectorObject with attr := b.selectorObject.attr ++ "[" ++ v ++ "]" } } := by
  unfold MyBuilder.attr at h
  split at h
  · exact absurd h (by simp)
  · exact (Except.ok.inj h).symm

/-- A successful pseudo-class call appends `':' + value` and touches
nothing else. -/
theorem pseudoClass_ok (b : MyBuilder) (v : String) (b₁ : MyBuilder)
    (h : b.pseudoClass v = .ok b₁) :
    b₁ = { b with selectorObject :=
      { b.selectorObject with pseudoClass := b.selectorObject.pseudoClass ++ ":" ++ v } } := by
  unfold MyBuilder.pseudoClass at h
  split at h
  · exact absurd h (by simp)
  · exact (Except.ok.inj h).symm

/-- A successful run from any builder changes the prefix text never, the
multi-valued fields by appending each call's fragment in order, and each
singular field by at most one recorded value. -/
theorem run_ok_fields : ∀ (cs : List Call) (b b' : MyBuilder), runAll b cs = .ok b' →
    b'.selectorText = b.selectorText ∧
    b'.selectorObject.cls = b.selectorObject.cls ++ clsFrags cs ∧
    b'.selectorObject.attr = b.selectorObject.attr ++ attrFrags cs ∧
    b'.selectorObject.pseudoClass = b.selectorObject.pseudoClass ++ pcFrags cs ∧
    ((elemVals cs = [] ∧ b'.selectorObject.element = b.selectorObject.element) ∨
      (∃ v, elemVals cs = [v] ∧ b.selectorObject.element = none ∧
        b'.selectorObject.element = some v)) ∧
    ((idVals cs = [] ∧ b'.selectorObject.id = b.selectorObject.id) ∨
      (∃ v, idVals cs = [v] ∧ b.selectorObject.id = none ∧
        b'.selectorObject.id = some ("#" ++ v))) ∧
    ((peVals cs = [] ∧ b'.selectorObject.pseudoElement = b.selectorObject.pseudoElement) ∨
      (∃ v, peVals cs = [v] ∧ b.selectorObject.pseudoElement = none ∧
        b'.selectorObject.pseudoElement = some ("::" ++ v))) := by
  intro cs
  induction cs with
  | nil =>
    intro b b' hrun
    have hb : b = b' := Except.ok.inj hrun
    subst hb
    exact ⟨rfl, by simp [clsFrags], by simp [attrFrags], by simp [pcFrags],
      Or.inl ⟨rfl, rfl⟩, Or.inl ⟨rfl, rfl⟩, Or.inl ⟨rfl, rfl⟩⟩
  | cons c cs ih =>
    intro b b' hrun
    cases happ : applyCall b c with
    | error e =>
      simp only [runAll, happ] at hrun
      exact Except.noConfusion hrun
    | ok b₁ =>
      simp only [runAll, happ] at hrun
      obtain ⟨h1, h2, h3, h4, h5, h6, h7⟩ := ih b₁ b' hrun
      cases c with
      | element v =>
        obtain ⟨hbel, hb₁⟩ := element_ok b v b₁ happ
        subst hb₁
        refine ⟨h1, ?_, ?_, ?_, ?_, ?_, ?_⟩
        · rw [h2]; simp [clsFrags, clsFragOf]
        · rw [h3]; simp [attrFrags, attrFragOf]
        · rw [h4]; simp [pcFrags, pcFragOf]
        · cases h5 with
          | inl hcase =>
            exact Or.inr ⟨v, by simp [elemVals, elemValOf, hcase.1], hbel, hcase.2⟩
          | inr hcase =>
            obtain ⟨w, hw, hn, he'⟩ := hcase
            exact absurd hn (by simp)
        · cases h6 with
          | inl hcase => exact Or.inl ⟨by simp [idVals, idValOf, hcase.1], hcase.2⟩
          | inr hcase =>
            obtain ⟨w, hw, hn, he'⟩ := hcase
            exact Or.inr ⟨w, by simp [idVals, idValOf, hw], hn, he'⟩
        · cases h7 with
          | inl hcase => exact Or.inl ⟨by simp [peVals, peValOf, hcase.1], hcase.2⟩
          | inr hcase =>
            obtain ⟨w, hw, hn, he'⟩ := hcase
            exact Or.inr ⟨w, by simp [peVals, peValOf, hw], hn, he'⟩
      | id v =>
        obtain ⟨hbid, hb₁⟩ := id_ok b v b₁ happ
        subst hb₁
        refine ⟨h1, ?_, ?_, ?_, ?_, ?_, ?_⟩
        · rw [h2]; simp [clsFrags, clsFragOf]
        · rw [h3]; simp [attrFrags, attrFragOf]
        · rw [h4]; simp [pcFrags, pcFragOf]
        · cases h5 with
          | inl hcase => exact Or.inl ⟨by simp [elemVals, elemValOf, hcase.1], hcase.2⟩
          | inr hcase =>
            obtain ⟨w, hw, hn, he'⟩ := hcase
            exact Or.inr ⟨w, by simp [elemVals, elemValOf, hw], hn, he'⟩
        · cases h6 with
          | inl hcase =>
            exact Or.inr ⟨v, by simp [idVals, idValOf, hcase.1], hbid, hcase.2⟩
          | inr hcase =>
            obtain ⟨w, hw, hn, he'⟩ := hcase
            exact absurd hn (by simp)
        · cases h7 with
          | inl hcase => exact Or.inl ⟨by simp [peVals, peValOf, hcase.1], hcase.2⟩
          | inr hcase =>
            obtain ⟨w, hw, hn, he'⟩ := hcase
            exact Or.inr ⟨w, by simp [peVals, peValOf, hw], hn, he'⟩
      | cls v =>
        have hb₁ := cls_ok b v b₁ happ
        subst hb₁
        refine ⟨h1, ?_, ?_, ?_, ?_, ?_, ?_⟩
        · rw [h2]; simp [clsFrags, clsFragOf, String.append_assoc]
        · rw [h3]; simp [attrFrags, attrFragOf]
        · rw [h4]; simp [pcFrags, pcFragOf]
        · cases h5 with
          | inl hcase => exact Or.inl ⟨by simp [elemVals, elemValOf, hcase.1], hcase.2⟩
          | inr hcase =>
            obtain ⟨w, hw, hn, he'⟩ := hcase
            exact Or.inr ⟨w, by simp [elemVals, elemValOf, hw], hn, he'⟩
        · cases h6 with
          | inl hcase => exact Or.inl ⟨by simp [idVals, idValOf, hcase.1], hcase.2⟩
          | inr hcase =>
            obtain ⟨w, hw, hn, he'⟩ := hcase
            exact Or.inr ⟨w, by simp [idVals, idValOf, hw], hn, he'⟩
        · cases h7 with
          | inl hcase => exact Or.inl ⟨by simp [peVals, peValOf, hcase.1], hcase.2⟩
          | inr hcase =>
            obtain ⟨w, hw, hn, he'⟩ := hcase
            exact Or.inr ⟨w, by simp [peVals, peValOf, hw], hn, he'⟩
      | attr v =>
        have hb₁ := attr_ok b v b₁ happ
        subst hb₁
        refine ⟨h1, ?_, ?_, ?_, ?_, ?_, ?_⟩
        · rw [h2]; simp [clsFrags, clsFragOf]
        · rw [h3]; simp [attrFrags, attrFragOf, String.append_assoc]
        · rw [h4]; simp [pcFrags, pcFragOf]
        · cases h5 with
          | inl hcase => exact Or.inl ⟨by simp [elemVals, elemValOf, hcase.1], hcase.2⟩
          | inr hcase =>
            obtain ⟨w, hw, hn, he'⟩ := hcase
            exact Or.inr ⟨w, by simp [elemVals, elemValOf, hw], hn, he'⟩
        · cases h6 with
          | inl hcase => exact Or.inl ⟨by simp [idVals, idValOf, hcase.1], hcase.2⟩
          | inr hcase =>
            obtain ⟨w, hw, hn, he'⟩ := hcase
            exact Or.inr ⟨w, by simp [idVals, idValOf, hw], hn, he'⟩
        · cases h7 with
          | inl hcase => exact Or.inl ⟨by simp [peVals, peValOf, hcase.1], hcase.2⟩
          | inr hcase =>
            obtain ⟨w, hw, hn, he'⟩ := hcase
            exact Or.inr ⟨w, by simp [peVals, peValOf, hw], hn, he'⟩
      | pseudoClass v =>
        have hb₁ := pseudoClass_ok b v b₁ happ
        subst hb₁
        refine ⟨h1, ?_, ?_, ?_, ?_, ?_, ?_⟩
        · rw [h2]; simp [clsFrags, clsFragOf]
        · rw [h3]; simp [attrFrags, attrFragOf]
        · rw [h4]; simp [pcFrags, pcFragOf, String.append_assoc]
        · cases h5 with
          | inl hcase => exact Or.inl ⟨by simp [elemVals, elemValOf, hcase.1], hcase.2⟩
          | inr hcase =>
            obtain ⟨w, hw, hn, he'⟩ := hcase
            exact Or.inr ⟨w, by simp [elemVals, elemValOf, hw], hn, he'⟩
        · cases h6 with
          | inl hcase => exact Or.inl ⟨by simp [idVals, idValOf, hcase.1], hcase.2⟩
          | inr hcase =>
            obtain ⟨w, hw, hn, he'⟩ := hcase
            exact Or.inr ⟨w, by simp [idVals, idValOf, hw], hn, he'⟩
        · cases h7 with
          | inl hcase => exact Or.inl ⟨by simp [peVals, peValOf, hcase.1], hcase.2⟩
          | inr hcase =>
            obtain ⟨w, hw, hn, he'⟩ := hcase
            exact Or.inr ⟨w, by simp [peVals, peValOf, hw], hn, he'⟩
      | pseudoElement v =>
        obtain ⟨hbpe, hb₁⟩ := pseudoElement_ok b v b₁ happ
        subst hb₁
        refine ⟨h1, ?_, ?_, ?_, ?_, ?_, ?_⟩
        · rw [h2]; simp [clsFrags, clsFragOf]
        · rw [h3]; simp [attrFrags, attrFragOf]
        · rw [h4]; simp [pcFrags, pcFragOf]
        · cases h5 with
          | inl hcase => exact Or.inl ⟨by simp [elemVals, elemValOf, hcase.1], hcase.2⟩
          | inr hcase =>
            obtain ⟨w, hw, hn, he'⟩ := hcase
            exact Or.inr ⟨w, by simp [elemVals, elemValOf, hw], hn, he'⟩
        · cases h6 with
          | inl hcase => exact Or.inl ⟨by simp [idVals, idValOf, hcase.1], hcase.2⟩
          | inr hcase =>
            obtain ⟨w, hw, hn, he'⟩ := hcase
            exact Or.inr ⟨w, by simp [idVals, idValOf, hw], hn, he'⟩
        · cases h7 with
          | inl hcase =>
            exact Or.inr ⟨v, by simp [peVals, peValOf, hcase.1], hbpe, hcase.2⟩
          | inr hcase =>
            obtain ⟨w, hw, hn, he'⟩ := hcase
            exact absurd hn (by simp)

/-- Claim C1: on a fresh builder with any prefix text, a non-error-raising
call sequence renders to the prefix, then the element name, the `'#name'`
id, the `'.name'` class fragments in insertion order, the `'[expr]'`
attribute fragments in insertion order, the `':name'` pseudo-class
fragments in insertion order, and the `'::name'` pseudo-element; in
particular class then class renders `'.a.b'`. -/
theorem stringify_concat_spec :
    (∀ (pre : String) (cs : List Call) (b' : MyBuilder),
      runAll { MyBuilder.new with selectorText := pre } cs = .ok b' →
      b'.stringify
        = pre ++ elemFrag cs ++ idFrag cs ++ clsFrags cs ++ attrFrags cs
            ++ pcFrags cs ++ peFrag cs) ∧
    (runAll MyBuilder.new [Call.cls "a", Call.cls "b"]).map MyBuilder.stringify
      = .ok ".a.b" := by
  refine ⟨?_, rfl⟩
  intro pre cs b' hrun
  obtain ⟨h1, h2, h3, h4, h5, h6, h7⟩ := run_ok_fields cs _ b' hrun
  have hel : optStr b'.selectorObject.element = elemFrag cs := by
    cases h5 with
    | inl hcase => rw [hcase.2]; simp [elemFrag, hcase.1, optStr, MyBuilder.new]
    | inr hcase =>
      obtain ⟨v, hv, _, he'⟩ := hcase
      rw [he']
      simp [elemFrag, hv, optStr]
  have hid : optStr b'.selectorObject.id = idFrag cs := by
    cases h6 with
    | inl hcase => rw [hcase.2]; simp [idFrag, hcase.1, optStr, MyBuilder.new]
    | inr hcase =>
      obtain ⟨v, hv, _, he'⟩ := hcase
      rw [he']
      simp [idFrag, hv, optStr]
  have hpe : optStr b'.selectorObject.pseudoElement = peFrag cs := by
    cases h7 with
    | inl hcase => rw [hcase.2]; simp [peFrag, hcase.1, optStr, MyBuilder.new]
    | inr hcase =>
      obtain ⟨v, hv, _, he'⟩ := hcase
      rw [he']
      simp [peFrag, hv, optStr]
  unfold MyBuilder.stringify
  rw [h1, hel, hid, h2, h3, h4, hpe]
  simp [MyBuilder.new]

/-- Witness for claim C1: the sequence element then class renders the
expected concatenation. -/
theorem stringify_concat_spec_witness :
    MyBuilder.stringify { selectorText := "", selectorObject :=
        { element := some "a", id := none, cls := ".b", attr := "",
          pseudoClass := "", pseudoElement := none } }
      = "" ++ elemFrag [Call.element "a", Call.cls "b"]
          ++ idFrag [Call.element "a", Call.cls "b"]
          ++ clsFrags [Call.element "a", Call.cls "b"]
          ++ attrFrags [Call.element "a", Call.cls "b"]
          ++ pcFrags [Call.element "a", Call.cls "b"]
          ++ peFrag [Call.element "a", Call.cls "b"] :=
  stringify_concat_spec.1 "" [Call.element "a", Call.cls "b"] _ rfl

/-! ## Combining -/

/-- `combine` renders to the two operand renderings joined around the
combinator with single spaces. -/
theorem combine_stringify (A B : MyBuilder) (c : String) :
    (cssSelectorBuilder.combine A c B).stringify
      = A.stringify ++ " " ++ c ++ " " ++ B.stringify := by
  show ("" ++ (A.stringify ++ " " ++ c ++ " " ++ B.stringify)) ++ "" ++ "" ++ ""
      ++ "" ++ "" ++ "" = A.stringify ++ " " ++ c ++ " " ++ B.stringify
  simp

/-- Claim C4: `combine` concatenates the operand renderings around the
combinator symbol with single spaces; nesting round-trips to the template
string, and the space combinator yields three consecutive spaces. -/
theorem combine_concat_spec (A B C : MyBuilder) (c₁ c₂ : String)
    (h₁ : c₁ ∈ [" ", "+", "~", ">"]) (h₂ : c₂ ∈ [" ", "+", "~", ">"]) :
    ((cssSelectorBuilder.combine A c₁ B).stringify
        = A.stringify ++ " " ++ c₁ ++ " " ++ B.stringify) ∧
    ((cssSelectorBuilder.combine (cssSelectorBuilder.combine A c₁ B) c₂ C).stringify
        = A.stringify ++ " " ++ c₁ ++ " " ++ B.stringify ++ " " ++ c₂ ++ " "
            ++ C.stringify) ∧
    ((cssSelectorBuilder.combine (cssSelectorBuilder.combine A "+" B) "~" C).stringify
        = A.stringify ++ " + " ++ B.stringify ++ " ~ " ++ C.stringify) ∧
    ((cssSelectorBuilder.combine A " " B).stringify
        = A.stringify ++ "   " ++ B.stringify) := by
  refine ⟨combine_stringify A B c₁, ?_, ?_, ?_⟩
  · rw [combine_stringify, combine_stringify]
  · rw [combine_stringify, combine_stringify]
    apply String.ext
    simp [String.data_append]
  · rw [combine_stringify]
    apply String.ext
    simp [String.data_append]

/-- Witness for claim C4 at concrete builders and the combinators `+`, `~`. -/
theorem combine_concat_spec_witness :
    (("+" : String) ∈ [" ", "+", "~", ">"] ∧ ("~" : String) ∈ [" ", "+", "~", ">"]) ∧
    ((cssSelectorBuilder.combine MyBuilder.new "+" MyBuilder.new).stringify
        = MyBuilder.new.stringify ++ " " ++ "+" ++ " " ++ MyBuilder.new.stringify) ∧
    ((cssSelectorBuilder.combine
        (cssSelectorBuilder.combine MyBuilder.new "+" MyBuilder.new) "~"
        MyBuilder.new).stringify
      = MyBuilder.new.stringify ++ " " ++ "+" ++ " " ++ MyBuilder.new.stringify
          ++ " " ++ "~" ++ " " ++ MyBuilder.new.stringify) ∧
    ((cssSelectorBuilder.combine
        (cssSelectorBuilder.combine MyBuilder.new "+" MyBuilder.new) "~"
        MyBuilder.new).stringify
      = MyBuilder.new.stringify ++ " + " ++ MyBuilder.new.stringify ++ " ~ "
          ++ MyBuilder.new.stringify) ∧
    ((cssSelectorBuilder.combine MyBuilder.new " " MyBuilder.new).stringify
        = MyBuilder.new.stringify ++ "   " ++ MyBuilder.new.stringify) :=
  ⟨⟨by simp, by simp⟩,
    combine_concat_spec MyBuilder.new MyBuilder.new MyBuilder.new "+" "~"
      (by simp) (by simp)⟩

/-- Claim C7: each facade method builds a fresh builder (empty prefix and
fields) and applies exactly its one category setter, which succeeds; the
facade's own `stringify()` renders the empty string. -/
theorem facade_fresh_builder_spec :
    (∀ v, cssSelectorBuilder.element v
      = .ok { selectorText := "", selectorObject :=
          { element := some v, id := none, cls := "", attr := "",
            pseudoClass := "", pseudoElement := none } }) ∧
    (∀ v, cssSelectorBuilder.id v
      = .ok { selectorText := "", selectorObject :=
          { element := none, id := some ("#" ++ v), cls := "", attr := "",
            pseudoClass := "", pseudoElement := none } }) ∧
    (∀ v, cssSelectorBuilder.cls v
      = .ok { selectorText := "", selectorObject :=
          { element := none, id := none, cls := "." ++ v, attr := "",
            pseudoClass := "", pseudoElement := none } }) ∧
    (∀ v, cssSelectorBuilder.attr v
      = .ok { selectorText := "", selectorObject :=
          { element := none, id := none, cls := "", attr := "[" ++ v ++ "]",
            pseudoClass := "", pseudoElement := none } }) ∧
    (∀ v, cssSelectorBuilder.pseudoClass v
      = .ok { selectorText := "", selectorObject :=
          { element := none, id := none, cls := "", attr := "",
            pseudoClass := ":" ++ v, pseudoElement := none } }) ∧
    (∀ v, cssSelectorBuilder.pseudoElement v
      = .ok { selectorText := "", selectorObject :=
          { element := none, id := none, cls := "", attr := "",
            pseudoClass := "", pseudoElement := some ("::" ++ v) } }) ∧
    cssSelectorBuilder.stringify = "" :=
  ⟨fun _ => rfl, fun _ => rfl, fun _ => rfl, fun _ => rfl, fun _ => rfl,
    fun _ => rfl, rfl⟩

/-! ## A store of builder instances (aliasing model)

Each call of `new MyBuilder()` yields a distinct heap object; a store maps
instance indices to their states, and a setter call mutates only its own
instance's entry. -/

/-- A heap of builder instances indexed by allocation number. -/
def Store : Type := Nat → MyBuilder

/-- Overwrite one instance's state. -/
def updStore (st : Store) (i : Nat) (b : MyBuilder) : Store :=
  fun j => if j = i then b else st j

/-- One setter call on instance `i`: on success that entry is replaced, on
a thrown error nothing changes. -/
def applyAtStore (st : Store) (i : Nat) (c : Call) : Store :=
  match applyCall (st i) c with
  | .ok b' => updStore st i b'
  | .error _ => st

/-- A chain of setter calls on instance `i`. -/
def applySeqAt (st : Store) (i : Nat) : List Call → Store
  | [] => st
  | c :: cs => applySeqAt (applyAtStore st i c) i cs

/-- Frame property of the store: calls on one instance never change
another entry. -/
theorem applySeqAt_frame : ∀ (cs : List Call) (st : Store) (i j : Nat), j ≠ i →
    applySeqAt st i cs j = st j := by
  intro cs
  induction cs with
  | nil => intro st i j _; rfl
  | cons c cs ih =>
    intro st i j hj
    show applySeqAt (applyAtStore st i c) i cs j = st j
    rw [ih _ i j hj]
    unfold applyAtStore
    cases happ : applyCall (st i) c with
    | ok b' =>
      show updStore st i b' j = st j
      unfold updStore
      rw [if_neg hj]
    | error e => rfl

/-- Claim C8: builders in distinct store slots share no mutable state: any
call sequence applied to one instance leaves every other instance's state
and rendering unchanged. -/
theorem store_frame_spec (st : Store) (i j : Nat) (cs : List Call) (hij : j ≠ i) :
    applySeqAt st i cs j = st j ∧
    (applySeqAt st i cs j).stringify = (st j).stringify := by
  have h := applySeqAt_frame cs st i j hij
  exact ⟨h, by rw [h]⟩

/-- Witness for claim C8: mutating instance 0 leaves instance 1 untouched. -/
theorem store_frame_spec_witness :
    (1 : Nat) ≠ 0 ∧
    applySeqAt (fun _ => MyBuilder.new) 0 [Call.cls "a"] 1
      = (fun _ => MyBuilder.new : Store) 1 ∧
    (applySeqAt (fun _ => MyBuilder.new) 0 [Call.cls "a"] 1).stringify
      = ((fun _ => MyBuilder.new : Store) 1).stringify :=
  ⟨by decide,
    (store_frame_spec (fun _ => MyBuilder.new) 0 1 [Call.cls "a"] (by decide)).1,
    (store_frame_spec (fun _ => MyBuilder.new) 0 1 [Call.cls "a"] (by decide)).2⟩

/-- Claim C9: `combine` snapshots its operands at call time: it stores the
already-rendered string, so later setter calls on either operand (any slot
other than the combined builder's) leave the combined rendering at the
value computed when `combine` was called. -/
theorem combine_snapshot_spec (st : Store) (i₁ i₂ k m : Nat) (comb : String)
    (cs : List Call) (hkm : k ≠ m) :
    (applySeqAt (updStore st k (cssSelectorBuilder.combine (st i₁) comb (st i₂)))
        m cs k).stringify
      = (st i₁).stringify ++ " " ++ comb ++ " " ++ (st i₂).stringify := by
  rw [applySeqAt_frame cs _ m k hkm]
  show (updStore st k (cssSelectorBuilder.combine (st i₁) comb (st i₂)) k).stringify = _
  unfold updStore
  rw [if_pos rfl]
  exact combine_stringify (st i₁) (st i₂) comb

/-- Witness for claim C9: after combining slots 0 and 1 into slot 2, a
class call on slot 0 leaves slot 2's rendering at the snapshot. -/
theorem combine_snapshot_spec_witness :
    (2 : Nat) ≠ 0 ∧
    (applySeqAt (updStore (fun _ => MyBuilder.new) 2
        (cssSelectorBuilder.combine ((fun _ => MyBuilder.new : Store) 0) "+"
          ((fun _ => MyBuilder.new : Store) 1))) 0 [Call.cls "a"] 2).stringify
      = ((fun _ => MyBuilder.new : Store) 0).stringify ++ " " ++ "+" ++ " "
          ++ ((fun _ => MyBuilder.new : Store) 1).stringify :=
  ⟨by decide,
    combine_snapshot_spec (fun _ => MyBuilder.new) 0 1 2 0 "+" [Call.cls "a"] (by decide)⟩

/-- Claim C10: `new Rectangle(width, height)` stores both fields and
`getArea()` returns their product. -/
theorem rectangle_spec (w h : Int) :
    (Rectangle.mk w h).width = w ∧ (Rectangle.mk w h).height = h ∧
    (Rectangle.mk w h).getArea = w * h :=
  ⟨rfl, rfl, rfl⟩


